import Mathlib

/-!
Shallow embedding of `scripts/load_contracts.py`: a pipeline that fetches
government-contract award records from a search API (one bounded query per
keyword), deduplicates them across keywords by `generated_internal_id`,
normalizes them into a fixed tabular schema (amount defaulting, lossy date
coercion, a second deduplication pass), writes the table to a local CSV
artifact, and then attempts a Snowflake bulk load.

Python dictionaries holding API records are modelled as association lists of
field name to `Value`; `dict.get` returns `Value.none` for an absent key,
matching Python's `None` default.  Python truthiness on these values is
`Value.truthy`.  External effects (the network request, the date parser from
pandas, the Snowflake connection) enter as explicit parameters describing
their outcome, and `mainRun` returns a result record plus an event trace in
program order; a run that aborts with an uncaught exception in the keyword
loop ends with the `evCrashed` event and produces nothing else.
-/

set_option autoImplicit false

namespace GovContracts

/-- A JSON-ish scalar value as held in an API record field.  `none` is
Python's `None` (also the result of `dict.get` on a missing key). -/
inductive Value where
  | none
  | str (s : String)
  | num (n : Int)
  deriving DecidableEq, Repr

/-- Python truthiness for the values that occur in records: `None`, the empty
string and numeric zero are falsy, everything else is truthy. -/
def Value.truthy : Value → Bool
  | .none => false
  | .str s => !(s = "")
  | .num n => !(n = 0)

/-- A raw award record from the API: an open-ended mapping of field names to
values (a Python dict). -/
abbrev RawRecord : Type := List (String × Value)

/-- `r.get(key)` on a Python dict: the first binding for `key`, else `None`. -/
def RawRecord.get (r : RawRecord) (key : String) : Value :=
  match r.find? (fun p => p.1 = key) with
  | some p => p.2
  | Option.none => Value.none

/-- `r.get("generated_internal_id")`, the deduplication key used by both the
aggregation loop in `main` and `transform_contracts`. -/
def getGenId (r : RawRecord) : Value :=
  r.get "generated_internal_id"

/-! ## Fetcher (`fetch_contracts`, lines 36-72) -/

/-- The value stored under the "results" key of the response JSON object.
`data.get("results", [])` returns it unchanged whatever its shape: only a
JSON array of record objects is usable by the caller; null, strings and
numbers (the JSON scalar shapes of `Value`) are handed back as-is. -/
inductive ResultsVal where
  | list (rs : List RawRecord)
  | scalar (v : Value)
  deriving DecidableEq, Repr

/-- The body of a successfully received HTTP response, as seen by
`response.json()`: either a JSON object — on which `data.get("results", [])`
never raises, returning the value under "results" (of any shape) or the
default `[]` when the key is absent — or some other JSON shape (array,
scalar), on which `data.get` raises `AttributeError`. -/
inductive JsonBody where
  | obj (results : Option ResultsVal)
  | nonObj
  deriving DecidableEq, Repr

/-- Result of `response.json()`: either the parsed body, or the exception it
raises on undecodable content. -/
inductive ParsedBody where
  | jsonError (msg : String)
  | json (b : JsonBody)
  deriving DecidableEq, Repr

/-- Outcome of the single `requests.post` call made for one keyword: a network
error, a timeout, or a response with an HTTP status and a body that either
parses as JSON or raises in `.json()`. -/
inductive NetResult where
  | netError (msg : String)
  | timeout
  | response (status : Nat) (body : ParsedBody)
  deriving DecidableEq, Repr

instance {ε α : Type} [DecidableEq ε] [DecidableEq α] : DecidableEq (Except ε α) :=
  fun a b =>
    match a, b with
    | .error e, .error f =>
      if h : e = f then isTrue (by rw [h]) else isFalse (by intro hh; cases hh; exact h rfl)
    | .error _, .ok _ => isFalse (by intro hh; cases hh)
    | .ok _, .error _ => isFalse (by intro hh; cases hh)
    | .ok x, .ok y =>
      if h : x = y then isTrue (by rw [h]) else isFalse (by intro hh; cases hh; exact h rfl)

/-- The `try` body of `fetch_contracts`: post the request, call
`raise_for_status` (which raises exactly for statuses 400-599), parse the
JSON body, and take `data.get("results", [])`.  On a dict body `dict.get`
never raises: a present "results" value is returned unchanged whatever its
shape, and `[]` is the default when the key is absent.  `Except.error` marks
every point where the Python code raises. -/
def fetchTry : NetResult → Except String ResultsVal
  | .netError m => .error m
  | .timeout => .error "ReadTimeout"
  | .response status body =>
    if 400 ≤ status ∧ status ≤ 599 then
      .error "HTTPError"
    else
      match body with
      | .jsonError m => .error m
      | .json (.obj (some v)) => .ok v
      | .json (.obj Option.none) => .ok (ResultsVal.list [])
      | .json .nonObj => .error "AttributeError"

/-- `fetch_contracts`: the `try`/`except Exception` wrapper around `fetchTry`.
Any exception raised inside the `try` body is caught, logged, and replaced by
the empty list; a value that `data.get` produced without raising — even a
non-list such as JSON null — is returned unchanged and unlogged. -/
def fetch_contracts (net : NetResult) : ResultsVal :=
  match fetchTry net with
  | .ok v => v
  | .error _ => ResultsVal.list []

/-! ## Aggregator (the keyword loop of `main`, lines 137-150) -/

/-- One keyword's pass of the deduplication loop in `main`: given the mutable
`seen_ids` set (modelled as the list of ids added so far) and the fetched
batch, returns the updated set and `new_results` — the records whose
generated id is truthy and not yet seen, in their original order. -/
def filterNew : List Value → List RawRecord → List Value × List RawRecord
  | seen, [] => (seen, [])
  | seen, r :: rest =>
    if (getGenId r).truthy = true ∧ getGenId r ∉ seen then
      ((filterNew (getGenId r :: seen) rest).1,
        r :: (filterNew (getGenId r :: seen) rest).2)
    else
      filterNew seen rest

/-- The keyword loop of `main`, threading `seen_ids` across batches and
appending each batch's `new_results` to `all_contracts`. -/
def aggLoop : List Value → List (List RawRecord) → List RawRecord
  | _, [] => []
  | seen, batch :: rest =>
    (filterNew seen batch).2 ++ aggLoop (filterNew seen batch).1 rest

/-- Cross-keyword aggregation: the keyword loop started with an empty
`seen_ids` set. -/
def aggregate (batches : List (List RawRecord)) : List RawRecord :=
  aggLoop [] batches

/-! ## Normalizer (`transform_contracts`, lines 74-103) -/

/-- A row of the output table.  The date columns have type `δ` so that the
same schema serves before (`δ = Value`, raw field) and after
(`δ = Option date`) the `pd.to_datetime` conversion. -/
structure Row (δ : Type) where
  INTERNAL_ID : Value
  AWARD_ID : Value
  GENERATED_INTERNAL_ID : Value
  RECIPIENT_NAME : Value
  AWARD_AMOUNT : Value
  DESCRIPTION : Value
  AWARDING_AGENCY : Value
  AWARDING_SUB_AGENCY : Value
  START_DATE : δ
  END_DATE : δ
  NAICS_CODE : Value
  NAICS_DESCRIPTION : Value
  PSC_CODE : Value
  deriving DecidableEq, Repr

/-- The per-record dictionary built in `transform_contracts`'s loop:
every field is `r.get(...)`, except `AWARD_AMOUNT` which is
`r.get("Award Amount") or 0`. -/
def makeRecord (r : RawRecord) : Row Value where
  INTERNAL_ID := r.get "internal_id"
  AWARD_ID := r.get "Award ID"
  GENERATED_INTERNAL_ID := r.get "generated_internal_id"
  RECIPIENT_NAME := r.get "Recipient Name"
  AWARD_AMOUNT := if (r.get "Award Amount").truthy = true then r.get "Award Amount" else Value.num 0
  DESCRIPTION := r.get "Description"
  AWARDING_AGENCY := r.get "Awarding Agency"
  AWARDING_SUB_AGENCY := r.get "Awarding Sub Agency"
  START_DATE := r.get "Start Date"
  END_DATE := r.get "End Date"
  NAICS_CODE := r.get "NAICS Code"
  NAICS_DESCRIPTION := r.get "NAICS Description"
  PSC_CODE := r.get "Product or Service Code"

/-- The `pd.to_datetime(..., errors="coerce")` step applied to the two date
columns of one row: `parse` is the pandas date parser, returning `none`
(pandas `NaT`) on any value it cannot parse, and the other columns are
untouched. -/
def convertDates {δ : Type} (parse : Value → Option δ) (row : Row Value) : Row (Option δ) where
  INTERNAL_ID := row.INTERNAL_ID
  AWARD_ID := row.AWARD_ID
  GENERATED_INTERNAL_ID := row.GENERATED_INTERNAL_ID
  RECIPIENT_NAME := row.RECIPIENT_NAME
  AWARD_AMOUNT := row.AWARD_AMOUNT
  DESCRIPTION := row.DESCRIPTION
  AWARDING_AGENCY := row.AWARDING_AGENCY
  AWARDING_SUB_AGENCY := row.AWARDING_SUB_AGENCY
  START_DATE := parse row.START_DATE
  END_DATE := parse row.END_DATE
  NAICS_CODE := row.NAICS_CODE
  NAICS_DESCRIPTION := row.NAICS_DESCRIPTION
  PSC_CODE := row.PSC_CODE

/-- `df.drop_duplicates(subset=[...])` keeping the first occurrence of each
key value, with the set of already-kept keys threaded through. -/
def dropDupAux {α : Type} (key : α → Value) : List α → List Value → List α
  | [], _ => []
  | x :: xs, seen =>
    if key x ∈ seen then
      dropDupAux key xs seen
    else
      x :: dropDupAux key xs (key x :: seen)

/-- `df.drop_duplicates(subset=["GENERATED_INTERNAL_ID"])`: keep the first row
for each key value. -/
def drop_duplicates {α : Type} (key : α → Value) (rows : List α) : List α :=
  dropDupAux key rows []

/-- `transform_contracts`: build one dictionary per record, convert the two
date columns with the coercing parser, then drop duplicate rows by
`GENERATED_INTERNAL_ID`. -/
def transform_contracts {δ : Type} (parse : Value → Option δ) (results : List RawRecord) :
    List (Row (Option δ)) :=
  let records := results.map makeRecord
  let df := records.map (convertDates parse)
  drop_duplicates (fun row => row.GENERATED_INTERNAL_ID) df

/-! ## Orchestrator (`main`, lines 129-179) -/

/-- The search keywords, in loop order (lines 19-34). -/
def SEARCH_KEYWORDS : List String :=
  ["data analytics", "artificial intelligence", "machine learning",
   "data warehouse", "data lake", "cloud computing", "big data",
   "data platform", "data engineering", "business intelligence",
   "Palantir", "database", "ETL", "data integration"]

/-- The fixed local artifact path (line 164). -/
def CSV_PATH : String := "/tmp/govcontracts_data.csv"

/-- Outcome of the Snowflake interaction attempted inside the `try` block of
`main`: `connect_snowflake()` raises, or it succeeds and `write_pandas`
raises, or both succeed and `write_pandas` reports `nrows` loaded rows. -/
inductive SnowOutcome where
  | connectFail (msg : String)
  | loadFail (msg : String)
  | loadOk (nrows : Nat)
  deriving DecidableEq, Repr

/-- What `main`'s keyword loop does with one keyword's fetched value:
`for r in results` iterates a list of records normally; on JSON null or a
number it raises an uncaught `TypeError` (not iterable); on a nonempty
string it iterates characters and the first `r.get(...)` raises an uncaught
`AttributeError`; the empty string iterates as zero records. -/
def iterRecords : ResultsVal → Except String (List RawRecord)
  | .list rs => .ok rs
  | .scalar Value.none => .error "TypeError"
  | .scalar (Value.num _) => .error "TypeError"
  | .scalar (Value.str s) => if s = "" then .ok [] else .error "AttributeError"

/-- Fetch and iterate each keyword's results in loop order; the first
uncaught exception aborts the run. -/
def iterateAll (net : String → NetResult) : List String → Except String (List (List RawRecord))
  | [] => .ok []
  | k :: ks =>
    match iterRecords (fetch_contracts (net k)) with
    | .error m => .error m
    | .ok rs =>
      match iterateAll net ks with
      | .error m => .error m
      | .ok rest => .ok (rs :: rest)

/-- The per-keyword record batches of one run of `main`, or the uncaught
exception that aborted the keyword loop. -/
def keywordBatches (net : String → NetResult) : Except String (List (List RawRecord)) :=
  iterateAll net SEARCH_KEYWORDS

/-- The batches `main` actually aggregates: those of a run whose keyword loop
completed, and `[]` when the run aborted before aggregation. -/
def runBatches (net : String → NetResult) : List (List RawRecord) :=
  match keywordBatches net with
  | .ok batches => batches
  | .error _ => []

/-- Observable side-effecting steps of `main`, recorded in program order. -/
inductive Ev where
  | evCrashed
  | evNoContracts
  | evCsvWrite
  | evConnectAttempt
  | evConnOpened
  | evLoadAttempt
  | evLoadSucceeded
  | evConnClosed
  | evErrorReported
  | evFallbackReported
  deriving DecidableEq, Repr

/-- What one run of `main` leaves behind: the normalized table if
normalization ran, the contents written to the CSV artifact if the write
ran, the row count the bulk load reported if it succeeded, and the trace of
observable steps in program order.  A run aborted by an uncaught exception
in the keyword loop has trace `[evCrashed]` and nothing else. -/
structure RunResult (δ : Type) where
  table : Option (List (Row (Option δ)))
  csvContents : Option (List (Row (Option δ)))
  loadedRows : Option Nat
  trace : List Ev
  deriving DecidableEq, Repr

/-- `main`: fetch one value per keyword and iterate it (a malformed non-list
value raises an uncaught exception that aborts the whole run), aggregate
across keywords, return early when nothing was found, otherwise normalize,
write the CSV artifact, and attempt the Snowflake load; on any exception in
the `try` block the error and the CSV fallback path are reported.
`conn.close()` (line 175) sits inside the `try` after the load, so
`evConnClosed` occurs only when the load succeeded. -/
def mainRun {δ : Type} (parse : Value → Option δ) (net : String → NetResult)
    (snow : SnowOutcome) : RunResult δ :=
  match keywordBatches net with
  | .error _ =>
    { table := Option.none, csvContents := Option.none,
      loadedRows := Option.none, trace := [.evCrashed] }
  | .ok batches =>
    let all_contracts := aggregate batches
    if all_contracts = [] then
      { table := Option.none, csvContents := Option.none,
        loadedRows := Option.none, trace := [.evNoContracts] }
    else
      let df := transform_contracts parse all_contracts
      match snow with
      | .connectFail _ =>
        { table := some df, csvContents := some df,
          loadedRows := Option.none,
          trace := [.evCsvWrite, .evConnectAttempt, .evErrorReported, .evFallbackReported] }
      | .loadFail _ =>
        { table := some df, csvContents := some df,
          loadedRows := Option.none,
          trace := [.evCsvWrite, .evConnectAttempt, .evConnOpened, .evLoadAttempt,
                    .evErrorReported, .evFallbackReported] }
      | .loadOk n =>
        { table := some df, csvContents := some df,
          loadedRows := some n,
          trace := [.evCsvWrite, .evConnectAttempt, .evConnOpened, .evLoadAttempt,
                    .evLoadSucceeded, .evConnClosed] }

/-! ## Helper lemmas: the aggregation loop -/

/-- Ids already seen stay seen after a pass of the loop. -/
theorem filterNew_fst_mem {seen : List Value} {xs : List RawRecord} {g : Value}
    (h : g ∈ seen) : g ∈ (filterNew seen xs).1 := by
  induction xs generalizing seen with
  | nil => simpa [filterNew] using h
  | cons r rest ih =>
    by_cases hc : (getGenId r).truthy = true ∧ getGenId r ∉ seen
    · simp only [filterNew, if_pos hc]
      exact ih (List.mem_cons_of_mem _ h)
    · simp only [filterNew, if_neg hc]
      exact ih h

/-- `new_results` is a sublist of the fetched batch: relative order is
preserved. -/
theorem filterNew_sublist (seen : List Value) (xs : List RawRecord) :
    List.Sublist (filterNew seen xs).2 xs := by
  induction xs generalizing seen with
  | nil => simp [filterNew]
  | cons r rest ih =>
    by_cases hc : (getGenId r).truthy = true ∧ getGenId r ∉ seen
    · simp only [filterNew, if_pos hc]
      exact (ih _).cons₂ r
    · simp only [filterNew, if_neg hc]
      exact (ih seen).cons r

/-- Every record kept by a pass has a truthy generated id that was not yet
seen when the pass started. -/
theorem filterNew_mem {seen : List Value} {xs : List RawRecord} {r : RawRecord}
    (h : r ∈ (filterNew seen xs).2) :
    (getGenId r).truthy = true ∧ getGenId r ∉ seen := by
  induction xs generalizing seen with
  | nil => simp [filterNew] at h
  | cons x rest ih =>
    by_cases hc : (getGenId x).truthy = true ∧ getGenId x ∉ seen
    · simp only [filterNew, if_pos hc] at h
      rcases List.mem_cons.mp h with h | h
      · subst h; exact hc
      · have hr := ih h
        exact ⟨hr.1, fun hmem => hr.2 (List.mem_cons_of_mem _ hmem)⟩
    · simp only [filterNew, if_neg hc] at h
      exact ih h

/-- The generated ids of the records kept by one pass are pairwise
distinct. -/
theorem filterNew_nodup (seen : List Value) (xs : List RawRecord) :
    ((filterNew seen xs).2.map getGenId).Nodup := by
  induction xs generalizing seen with
  | nil => simp [filterNew]
  | cons x rest ih =>
    by_cases hc : (getGenId x).truthy = true ∧ getGenId x ∉ seen
    · simp only [filterNew, if_pos hc, List.map_cons]
      refine List.nodup_cons.mpr ⟨?_, ih _⟩
      intro hmem
      rcases List.mem_map.mp hmem with ⟨r, hr, hgr⟩
      exact (filterNew_mem hr).2 (hgr ▸ List.mem_cons_self _ _)
    · simp only [filterNew, if_neg hc]
      exact ih seen

/-- Running one pass over a concatenation equals running it over the two
halves with the seen set threaded through. -/
theorem filterNew_append (seen : List Value) (xs ys : List RawRecord) :
    filterNew seen (xs ++ ys) =
      ((filterNew (filterNew seen xs).1 ys).1,
       (filterNew seen xs).2 ++ (filterNew (filterNew seen xs).1 ys).2) := by
  induction xs generalizing seen with
  | nil => simp [filterNew]
  | cons x rest ih =>
    by_cases hc : (getGenId x).truthy = true ∧ getGenId x ∉ seen
    · simp only [List.cons_append, filterNew, if_pos hc, List.append_eq, ih]
    · simp only [List.cons_append, filterNew, if_neg hc, List.append_eq, ih]

/-- The keyword loop equals a single pass over the concatenation of all
batches. -/
theorem aggLoop_eq_filterNew (seen : List Value) (batches : List (List RawRecord)) :
    aggLoop seen batches = (filterNew seen batches.flatten).2 := by
  induction batches generalizing seen with
  | nil => simp [aggLoop, filterNew]
  | cons b rest ih => simp [aggLoop, filterNew_append, ih]

/-- `aggregate` as a single first-occurrence pass over all fetched records. -/
theorem aggregate_eq (batches : List (List RawRecord)) :
    aggregate batches = (filterNew [] batches.flatten).2 :=
  aggLoop_eq_filterNew [] batches

/-- One pass keeps exactly the first occurrence of each fresh truthy id. -/
theorem filterNew_filter_key (seen : List Value) (xs : List RawRecord) (g : Value)
    (hg : g.truthy = true) (hs : g ∉ seen) :
    (filterNew seen xs).2.filter (fun r => decide (getGenId r = g)) =
      (xs.filter (fun r => decide (getGenId r = g))).take 1 := by
  induction xs generalizing seen with
  | nil => simp [filterNew]
  | cons x rest ih =>
    by_cases hx : getGenId x = g
    · have hc : (getGenId x).truthy = true ∧ getGenId x ∉ seen := by
        rw [hx]; exact ⟨hg, hs⟩
      simp only [filterNew, if_pos hc]
      have htail : (filterNew (getGenId x :: seen) rest).2.filter
          (fun r => decide (getGenId r = g)) = [] := by
        rw [List.filter_eq_nil_iff]
        intro r hr
        simp only [decide_eq_true_eq]
        intro he
        exact (filterNew_mem hr).2 (by rw [he, ← hx]; exact List.mem_cons_self _ _)
      rw [List.filter_cons_of_pos (by simp [hx]), List.filter_cons_of_pos (by simp [hx]),
        htail]
      simp
    · by_cases hc : (getGenId x).truthy = true ∧ getGenId x ∉ seen
      · simp only [filterNew, if_pos hc]
        rw [List.filter_cons_of_neg (by simp [hx]), List.filter_cons_of_neg (by simp [hx])]
        exact ih (getGenId x :: seen)
          (by simp only [List.mem_cons]; rintro (h | h)
              · exact hx h.symm
              · exact hs h)
      · simp only [filterNew, if_neg hc]
        rw [List.filter_cons_of_neg (by simp [hx])]
        exact ih seen hs

/-! ## Helper lemmas: `drop_duplicates` -/

/-- `drop_duplicates` only removes rows; the kept rows preserve order. -/
theorem dropDupAux_sublist {α : Type} (key : α → Value) (xs : List α) (seen : List Value) :
    List.Sublist (dropDupAux key xs seen) xs := by
  induction xs generalizing seen with
  | nil => simp [dropDupAux]
  | cons x rest ih =>
    by_cases hc : key x ∈ seen
    · simp only [dropDupAux, if_pos hc]
      exact (ih seen).cons x
    · simp only [dropDupAux, if_neg hc]
      exact (ih _).cons₂ x

/-- A kept row's key was not among the already-kept keys. -/
theorem dropDupAux_mem {α : Type} {key : α → Value} {xs : List α} {seen : List Value}
    {y : α} (h : y ∈ dropDupAux key xs seen) : key y ∉ seen := by
  induction xs generalizing seen with
  | nil => simp [dropDupAux] at h
  | cons x rest ih =>
    by_cases hc : key x ∈ seen
    · simp only [dropDupAux, if_pos hc] at h
      exact ih h
    · simp only [dropDupAux, if_neg hc] at h
      rcases List.mem_cons.mp h with h | h
      · subst h; exact hc
      · have hy := ih h
        intro hmem
        exact hy (List.mem_cons_of_mem _ hmem)

/-- After `drop_duplicates` the key column is duplicate-free. -/
theorem dropDupAux_nodup {α : Type} (key : α → Value) (xs : List α) (seen : List Value) :
    ((dropDupAux key xs seen).map key).Nodup := by
  induction xs generalizing seen with
  | nil => simp [dropDupAux]
  | cons x rest ih =>
    by_cases hc : key x ∈ seen
    · simp only [dropDupAux, if_pos hc]
      exact ih seen
    · simp only [dropDupAux, if_neg hc, List.map_cons]
      refine List.nodup_cons.mpr ⟨?_, ih _⟩
      intro hmem
      rcases List.mem_map.mp hmem with ⟨y, hy, hky⟩
      exact dropDupAux_mem hy (hky ▸ List.mem_cons_self _ _)

/-- On a key-duplicate-free list whose keys avoid the seen set,
`drop_duplicates` removes nothing. -/
theorem dropDupAux_eq_self {α : Type} {key : α → Value} {xs : List α} {seen : List Value}
    (hn : (xs.map key).Nodup) (hdisj : ∀ x ∈ xs, key x ∉ seen) :
    dropDupAux key xs seen = xs := by
  induction xs generalizing seen with
  | nil => simp [dropDupAux]
  | cons x rest ih =>
    have hx : key x ∉ seen := hdisj x (List.mem_cons_self _ _)
    simp only [dropDupAux, if_neg hx]
    congr 1
    refine ih (List.nodup_cons.mp (by simpa using hn)).2 ?_
    intro y hy
    simp only [List.mem_cons]
    rintro (h | h)
    · exact (List.nodup_cons.mp (by simpa using hn)).1 (h ▸ List.mem_map_of_mem key hy)
    · exact hdisj y (List.mem_cons_of_mem _ hy) h

/-! ## Helper lemmas: the normalizer -/

/-- Normalizing one raw record, as done row-wise inside
`transform_contracts` before the dedup step. -/
def normalizeRow {δ : Type} (parse : Value → Option δ) (r : RawRecord) : Row (Option δ) :=
  convertDates parse (makeRecord r)

/-- `transform_contracts` is row-wise normalization followed by
`drop_duplicates` on the generated id column. -/
theorem transform_contracts_eq {δ : Type} (parse : Value → Option δ)
    (results : List RawRecord) :
    transform_contracts parse results =
      drop_duplicates (fun row => row.GENERATED_INTERNAL_ID)
        (results.map (normalizeRow parse)) := by
  simp only [transform_contracts, List.map_map]
  rfl

/-- Normalization does not change the generated id. -/
theorem normalizeRow_genId {δ : Type} (parse : Value → Option δ) (r : RawRecord) :
    (normalizeRow parse r).GENERATED_INTERNAL_ID = getGenId r :=
  rfl

/-- The id column of the row-wise normalized table is the id column of the
input records. -/
theorem map_genId_normalize {δ : Type} (parse : Value → Option δ)
    (results : List RawRecord) :
    (results.map (normalizeRow parse)).map (fun row => row.GENERATED_INTERNAL_ID) =
      results.map getGenId := by
  rw [List.map_map]
  rfl

/-- Corollary of `filterNew_nodup`: after aggregation the generated ids are
pairwise distinct. -/
theorem aggregate_nodup (batches : List (List RawRecord)) :
    ((aggregate batches).map getGenId).Nodup := by
  rw [aggregate_eq]
  exact filterNew_nodup [] batches.flatten

/-- Corollary of `filterNew_mem`: every aggregated record has a truthy
generated id. -/
theorem aggregate_truthy {batches : List (List RawRecord)} {r : RawRecord}
    (h : r ∈ aggregate batches) : (getGenId r).truthy = true := by
  rw [aggregate_eq] at h
  exact (filterNew_mem h).1

/-- The normalized table of a nonempty record list is nonempty: the first
row is always kept by `drop_duplicates`. -/
theorem transform_contracts_ne_nil {δ : Type} (parse : Value → Option δ)
    {results : List RawRecord} (h : results ≠ []) :
    transform_contracts parse results ≠ [] := by
  rcases results with _ | ⟨r, rest⟩
  · exact absurd rfl h
  · rw [transform_contracts_eq]
    simp only [List.map_cons, drop_duplicates, dropDupAux,
      List.not_mem_nil, if_neg (fun hmem => List.not_mem_nil _ hmem)]
    exact List.cons_ne_nil _ _

/-! ## Concrete inputs used by witnesses -/

/-- A raw record with generated id "A" and nothing else (so its amount field
is absent and its dates are absent). -/
def recA : RawRecord := [("generated_internal_id", Value.str "A")]

/-- A raw record with generated id "B" and an award amount. -/
def recB : RawRecord :=
  [("generated_internal_id", Value.str "B"), ("Award Amount", Value.num 5)]

/-- A date parser that parses nothing (every date string is unparseable). -/
def parseNone : Value → Option Unit := fun _ => Option.none

/-- A network environment in which every keyword's request fails. -/
def netAllFail : String → NetResult := fun _ => NetResult.netError "connection refused"

/-- A network environment in which every keyword returns the single record
`recA`. -/
def netOneRecord : String → NetResult :=
  fun _ => NetResult.response 200 (ParsedBody.json (JsonBody.obj (some (ResultsVal.list [recA]))))

/-- A network environment in which every keyword's response is the malformed
body with a null "results" value. -/
def netNullResults : String → NetResult :=
  fun _ => NetResult.response 200 (ParsedBody.json (JsonBody.obj (some (ResultsVal.scalar Value.none))))

/-! ## Claims -/

/-- Claim C3 counterexample: a 200 response whose body is a JSON dict with a
null "results" value is a malformed response, yet nothing raises inside the
`try` body (`dict.get` returns the null unchanged), so nothing is caught or
logged and `fetch_contracts` returns the null instead of an empty sequence;
`main`'s loop then raises an uncaught `TypeError` on it and the whole run
aborts with a crash. -/
theorem fetch_malformed_counterexample :
    fetchTry (netNullResults "data analytics") = Except.ok (ResultsVal.scalar Value.none) ∧
    fetch_contracts (netNullResults "data analytics") = ResultsVal.scalar Value.none ∧
    ¬fetch_contracts (netNullResults "data analytics") = ResultsVal.list [] ∧
    iterRecords (fetch_contracts (netNullResults "data analytics")) = Except.error "TypeError" ∧
    keywordBatches netNullResults = Except.error "TypeError" ∧
    (mainRun parseNone netNullResults (SnowOutcome.loadOk 0)).trace = [Ev.evCrashed] := by
  decide

/-- Claim C3 amended: every failure that raises inside the `try` body —
network error, timeout, HTTP status 400-599, undecodable JSON, a non-dict
JSON body — is caught, logged and replaced by the empty list and never
propagates; but a response that is a JSON dict whose "results" value is
present and not a list is returned unchanged without logging, and `main`'s
loop then raises an uncaught exception on it (TypeError on null or a
number, AttributeError on a nonempty string), aborting the run — except the
empty string, which iterates as zero records. -/
theorem fetch_failure_amended :
    (∀ (net : NetResult) (m : String), fetchTry net = Except.error m →
      fetch_contracts net = ResultsVal.list []) ∧
    (∀ m : String, fetchTry (NetResult.netError m) = Except.error m) ∧
    (∃ m : String, fetchTry NetResult.timeout = Except.error m) ∧
    (∀ (s : Nat) (b : ParsedBody), 400 ≤ s → s ≤ 599 →
      ∃ m : String, fetchTry (NetResult.response s b) = Except.error m) ∧
    (∀ (s : Nat) (m : String), ∃ m2 : String,
      fetchTry (NetResult.response s (ParsedBody.jsonError m)) = Except.error m2) ∧
    (∀ s : Nat, ∃ m2 : String,
      fetchTry (NetResult.response s (ParsedBody.json JsonBody.nonObj)) = Except.error m2) ∧
    (∀ (s : Nat) (v : ResultsVal), ¬(400 ≤ s ∧ s ≤ 599) →
      fetchTry (NetResult.response s (ParsedBody.json (JsonBody.obj (some v)))) = Except.ok v ∧
      fetch_contracts (NetResult.response s (ParsedBody.json (JsonBody.obj (some v)))) = v) ∧
    (∀ rs : List RawRecord, iterRecords (ResultsVal.list rs) = Except.ok rs) ∧
    iterRecords (ResultsVal.scalar Value.none) = Except.error "TypeError" ∧
    (∀ n : Int, iterRecords (ResultsVal.scalar (Value.num n)) = Except.error "TypeError") ∧
    (∀ s : String, ¬s = "" →
      iterRecords (ResultsVal.scalar (Value.str s)) = Except.error "AttributeError") ∧
    iterRecords (ResultsVal.scalar (Value.str "")) = Except.ok [] := by
  refine ⟨?_, fun m => rfl, ⟨"ReadTimeout", rfl⟩, ?_, ?_, ?_, ?_,
    fun rs => rfl, rfl, fun n => rfl, ?_, rfl⟩
  · intro net m h
    simp [fetch_contracts, h]
  · intro s b h4 h5
    exact ⟨"HTTPError", by simp [fetchTry, if_pos (And.intro h4 h5)]⟩
  · intro s m
    by_cases hs : 400 ≤ s ∧ s ≤ 599
    · exact ⟨"HTTPError", by simp [fetchTry, hs]⟩
    · exact ⟨m, by simp [fetchTry, hs]⟩
  · intro s
    by_cases hs : 400 ≤ s ∧ s ≤ 599
    · exact ⟨"HTTPError", by simp [fetchTry, hs]⟩
    · exact ⟨"AttributeError", by simp [fetchTry, hs]⟩
  · intro s v hs
    constructor <;> simp [fetch_contracts, fetchTry, hs]
  · intro s hs
    simp [iterRecords, hs]

/-- Witness for the amended C3: a network error is replaced by the empty
list, a 503 status raises and is caught, a numeric "results" value on a 200
response is returned unchanged, and a nonempty string crashes the loop. -/
theorem fetch_failure_amended_witness :
    fetch_contracts (NetResult.netError "connection refused") = ResultsVal.list [] ∧
    (∃ m : String, fetchTry (NetResult.response 503
      (ParsedBody.json (JsonBody.obj (some (ResultsVal.list [recA]))))) = Except.error m) ∧
    fetch_contracts (NetResult.response 200
      (ParsedBody.json (JsonBody.obj (some (ResultsVal.scalar (Value.num 7)))))) =
      ResultsVal.scalar (Value.num 7) ∧
    iterRecords (ResultsVal.scalar (Value.str "x")) = Except.error "AttributeError" := by
  obtain ⟨h1, _, _, h4, _, _, h7, _, _, _, h11, _⟩ := fetch_failure_amended
  exact ⟨h1 (NetResult.netError "connection refused") "connection refused" rfl,
    h4 503 (ParsedBody.json (JsonBody.obj (some (ResultsVal.list [recA])))) (by decide) (by decide),
    (h7 200 (ResultsVal.scalar (Value.num 7)) (by decide)).2,
    h11 "x" (by decide)⟩

/-- Claim C4: when the raw amount field is absent, null, or falsy
(`r.get("Award Amount") or 0`), the normalized row's AWARD_AMOUNT is 0;
otherwise it is exactly the source value. -/
theorem award_amount_default {δ : Type} (parse : Value → Option δ) (r : RawRecord) :
    ((RawRecord.get r "Award Amount").truthy = false →
      (normalizeRow parse r).AWARD_AMOUNT = Value.num 0) ∧
    ((RawRecord.get r "Award Amount").truthy = true →
      (normalizeRow parse r).AWARD_AMOUNT = RawRecord.get r "Award Amount") := by
  constructor <;> intro h <;> simp [normalizeRow, convertDates, makeRecord, h]

/-- Witness for C4: `recA` has no amount field, so its row carries 0; `recB`
has amount 5, which is passed through. -/
theorem award_amount_default_witness :
    (normalizeRow parseNone recA).AWARD_AMOUNT = Value.num 0 ∧
    (normalizeRow parseNone recB).AWARD_AMOUNT = RawRecord.get recB "Award Amount" :=
  ⟨(award_amount_default parseNone recA).1 (by decide),
   (award_amount_default parseNone recB).2 (by decide)⟩

/-- Claim C5: a date value the coercing parser cannot handle becomes null in
the normalized row (`errors="coerce"`), for both date columns; the record
itself is retained — the row-wise normalized table has exactly one row per
input record, and normalization is a total function, so it never raises. -/
theorem date_coercion_safe {δ : Type} (parse : Value → Option δ) (r : RawRecord)
    (results : List RawRecord) :
    (parse (RawRecord.get r "Start Date") = Option.none →
      (normalizeRow parse r).START_DATE = Option.none) ∧
    (parse (RawRecord.get r "End Date") = Option.none →
      (normalizeRow parse r).END_DATE = Option.none) ∧
    (results.map (normalizeRow parse)).length = results.length := by
  refine ⟨fun h => ?_, fun h => ?_, List.length_map _ _⟩ <;>
    simpa [normalizeRow, convertDates, makeRecord] using h

/-- Witness for C5: with a parser that parses nothing, `recA`'s dates are
null and the one-record table still has one row. -/
theorem date_coercion_safe_witness :
    (normalizeRow parseNone recA).START_DATE = Option.none ∧
    (normalizeRow parseNone recA).END_DATE = Option.none ∧
    ([recA].map (normalizeRow parseNone)).length = [recA].length :=
  ⟨(date_coercion_safe parseNone recA [recA]).1 rfl,
   (date_coercion_safe parseNone recA [recA]).2.1 rfl,
   (date_coercion_safe parseNone recA [recA]).2.2⟩

/-- Claim C1: GENERATED_INTERNAL_ID is duplicate-free after the aggregation
pass, after `transform_contracts` on any input, and in particular in the
final normalized table of the pipeline (normalization of the aggregated
records), however many keyword batches contained the same record. -/
theorem genId_unique_pipeline {δ : Type} (parse : Value → Option δ)
    (batches : List (List RawRecord)) (results : List RawRecord) :
    ((aggregate batches).map getGenId).Nodup ∧
    ((transform_contracts parse results).map (fun row => row.GENERATED_INTERNAL_ID)).Nodup ∧
    ((transform_contracts parse (aggregate batches)).map
      (fun row => row.GENERATED_INTERNAL_ID)).Nodup := by
  refine ⟨aggregate_nodup batches, ?_, ?_⟩ <;>
    · rw [transform_contracts_eq]
      exact dropDupAux_nodup (fun row : Row (Option δ) => row.GENERATED_INTERNAL_ID) _ []

/-- Claim C6: the aggregated output lists records in first-seen order — it is
a sublist of the concatenation of the batches in keyword order (so each
batch's relative order is preserved), every kept record has a truthy
generated id (falsy ones are discarded), and for each truthy id the kept
occurrence is exactly the first one across all batches, so earlier keywords
win ties. -/
theorem aggregate_first_seen_order (batches : List (List RawRecord)) :
    List.Sublist (aggregate batches) batches.flatten ∧
    (∀ r ∈ aggregate batches, (getGenId r).truthy = true) ∧
    (∀ g : Value, g.truthy = true →
      (aggregate batches).filter (fun r => decide (getGenId r = g)) =
        (batches.flatten.filter (fun r => decide (getGenId r = g))).take 1) := by
  refine ⟨?_, ?_, ?_⟩
  · rw [aggregate_eq]
    exact filterNew_sublist [] batches.flatten
  · intro r hr
    exact aggregate_truthy hr
  · intro g hg
    rw [aggregate_eq]
    exact filterNew_filter_key [] batches.flatten g hg (List.not_mem_nil g)

/-- Witness for C6: with record A in both batches, the kept occurrence of id
"A" is the first one of the concatenation, and the kept record A has a
truthy id. -/
theorem aggregate_first_seen_order_witness :
    (getGenId recA).truthy = true ∧
    (aggregate [[recA, recB], [recA]]).filter (fun r => decide (getGenId r = Value.str "A")) =
      (([[recA, recB], [recA]] : List (List RawRecord)).flatten.filter
        (fun r => decide (getGenId r = Value.str "A"))).take 1 :=
  ⟨(aggregate_first_seen_order [[recA, recB], [recA]]).2.1 recA (by decide),
   (aggregate_first_seen_order [[recA, recB], [recA]]).2.2 (Value.str "A") (by decide)⟩

/-- Claim C7: per run, the total record count fetched across all keywords is
at least the aggregated count, which is at least the final table's row
count — proved both for the batches of the actual run (`runBatches`, the
composition of `fetch_contracts` and the keyword loop) and for any batch
list whatsoever. -/
theorem monotonic_counts {δ : Type} (parse : Value → Option δ)
    (net : String → NetResult) (batches : List (List RawRecord)) :
    ((transform_contracts parse (aggregate batches)).length ≤ (aggregate batches).length ∧
      (aggregate batches).length ≤ (batches.map List.length).sum) ∧
    ((transform_contracts parse (aggregate (runBatches net))).length ≤
        (aggregate (runBatches net)).length ∧
      (aggregate (runBatches net)).length ≤ ((runBatches net).map List.length).sum) := by
  have key : ∀ bs : List (List RawRecord),
      (transform_contracts parse (aggregate bs)).length ≤ (aggregate bs).length ∧
      (aggregate bs).length ≤ (bs.map List.length).sum := by
    intro bs
    constructor
    · rw [transform_contracts_eq]
      have hsub := (dropDupAux_sublist (fun row => row.GENERATED_INTERNAL_ID)
        ((aggregate bs).map (normalizeRow parse)) []).length_le
      simpa using hsub
    · rw [aggregate_eq]
      have hsub := (filterNew_sublist [] bs.flatten).length_le
      simpa [List.length_flatten] using hsub
  exact ⟨key batches, key (runBatches net)⟩

/-- Claim C2 counterexample: `conn.close()` (line 175) sits inside the `try`
block after the bulk load, so when `write_pandas` raises, control jumps to
the `except` clause and the close is skipped.  Concretely: every keyword
returns one record, the connection opens, the bulk load fails — the trace
records the connection being opened but never closed. -/
theorem conn_release_counterexample :
    Ev.evConnOpened ∈
      (mainRun parseNone netOneRecord (SnowOutcome.loadFail "write failed")).trace ∧
    Ev.evConnClosed ∉
      (mainRun parseNone netOneRecord (SnowOutcome.loadFail "write failed")).trace := by
  decide

/-- Claim C2 amended: whenever a warehouse connection is successfully opened,
it is closed exactly when the bulk load succeeds; when the bulk load fails,
the `except` path skips `conn.close()` and the connection is not released by
the program. -/
theorem conn_release_amended {δ : Type} (parse : Value → Option δ)
    (net : String → NetResult) (snow : SnowOutcome)
    (h : Ev.evConnOpened ∈ (mainRun parse net snow).trace) :
    Ev.evConnClosed ∈ (mainRun parse net snow).trace ↔
      ∃ n, snow = SnowOutcome.loadOk n := by
  cases hkb : keywordBatches net with
  | error m => simp [mainRun, hkb] at h
  | ok batches =>
    by_cases hempty : aggregate batches = []
    · simp [mainRun, hkb, hempty] at h
    · cases snow with
      | connectFail m => simp [mainRun, hkb, hempty] at h
      | loadFail m =>
        simp only [mainRun, hkb, if_neg hempty]
        constructor
        · intro hc
          exact absurd hc (by decide)
        · rintro ⟨n, hn⟩
          exact absurd hn (by simp)
      | loadOk n =>
        simp only [mainRun, hkb, if_neg hempty]
        exact iff_of_true (by decide) ⟨n, rfl⟩

/-- Witness for the amended C2: on a run whose bulk load succeeds, the
connection is closed. -/
theorem conn_release_amended_witness :
    Ev.evConnClosed ∈ (mainRun parseNone netOneRecord (SnowOutcome.loadOk 1)).trace ↔
      ∃ n, SnowOutcome.loadOk 1 = SnowOutcome.loadOk n :=
  conn_release_amended parseNone netOneRecord (SnowOutcome.loadOk 1) (by decide)

/-- Claim C8: on any run whose keyword loop completes and whose aggregation
yields no records, `main` prints the "No contracts found!" report and
returns at once — no normalization, no CSV artifact, no warehouse
interaction. -/
theorem empty_aggregate_early_return {δ : Type} (parse : Value → Option δ)
    (net : String → NetResult) (snow : SnowOutcome)
    (batches : List (List RawRecord))
    (hkb : keywordBatches net = Except.ok batches)
    (h : aggregate batches = []) :
    (mainRun parse net snow).trace = [Ev.evNoContracts] ∧
    (mainRun parse net snow).table = Option.none ∧
    (mainRun parse net snow).csvContents = Option.none ∧
    (mainRun parse net snow).loadedRows = Option.none := by
  simp [mainRun, hkb, h]

/-- Witness for C8: when every keyword's fetch fails, the run stops at the
"No contracts found!" report. -/
theorem empty_aggregate_early_return_witness :
    (mainRun parseNone netAllFail (SnowOutcome.loadOk 0)).trace = [Ev.evNoContracts] ∧
    (mainRun parseNone netAllFail (SnowOutcome.loadOk 0)).table = Option.none ∧
    (mainRun parseNone netAllFail (SnowOutcome.loadOk 0)).csvContents = Option.none ∧
    (mainRun parseNone netAllFail (SnowOutcome.loadOk 0)).loadedRows = Option.none :=
  empty_aggregate_early_return parseNone netAllFail (SnowOutcome.loadOk 0)
    (List.replicate 14 []) (by decide) (by decide)

/-- Claim C9: whenever normalization ran, its table is nonempty and the full
table is written to the CSV artifact as the very first observable step —
before any warehouse connection attempt — so the artifact holds all rows
whatever the Snowflake outcome; and on a delivery failure (connect or load),
the run reports the CSV fallback path. -/
theorem csv_artifact_guarantee {δ : Type} (parse : Value → Option δ)
    (net : String → NetResult) (snow : SnowOutcome) (t : List (Row (Option δ)))
    (h : (mainRun parse net snow).table = some t) :
    t ≠ [] ∧
    (mainRun parse net snow).csvContents = some t ∧
    (∃ tr, (mainRun parse net snow).trace = Ev.evCsvWrite :: tr) ∧
    ((∃ m, snow = SnowOutcome.connectFail m) ∨ (∃ m, snow = SnowOutcome.loadFail m) →
      Ev.evFallbackReported ∈ (mainRun parse net snow).trace) := by
  cases hkb : keywordBatches net with
  | error m => simp [mainRun, hkb] at h
  | ok batches =>
    by_cases hempty : aggregate batches = []
    · simp [mainRun, hkb, hempty] at h
    · have htdf : t = transform_contracts parse (aggregate batches) := by
        cases snow <;>
          · simp only [mainRun, hkb, if_neg hempty] at h
            exact (Option.some.inj h).symm
      refine ⟨?_, ?_, ?_, ?_⟩
      · rw [htdf]
        exact transform_contracts_ne_nil parse hempty
      · cases snow <;>
          · simp only [mainRun, hkb, if_neg hempty] at h ⊢
            exact h
      · cases snow <;>
          · simp only [mainRun, hkb, if_neg hempty]
            exact ⟨_, rfl⟩
      · rintro (⟨m, hm⟩ | ⟨m, hm⟩) <;>
          · subst hm
            simp [mainRun, hkb, if_neg hempty]

/-- Witness for C9: on a run returning one record whose bulk load fails, the
CSV artifact holds the full (nonempty) table and the fallback path is
reported. -/
theorem csv_artifact_guarantee_witness :
    transform_contracts parseNone [recA] ≠ [] ∧
    (mainRun parseNone netOneRecord (SnowOutcome.loadFail "write failed")).csvContents =
      some (transform_contracts parseNone [recA]) ∧
    (∃ tr, (mainRun parseNone netOneRecord (SnowOutcome.loadFail "write failed")).trace =
      Ev.evCsvWrite :: tr) ∧
    ((∃ m, SnowOutcome.loadFail "write failed" = SnowOutcome.connectFail m) ∨
     (∃ m, SnowOutcome.loadFail "write failed" = SnowOutcome.loadFail m) →
      Ev.evFallbackReported ∈
        (mainRun parseNone netOneRecord (SnowOutcome.loadFail "write failed")).trace) :=
  csv_artifact_guarantee parseNone netOneRecord (SnowOutcome.loadFail "write failed")
    (transform_contracts parseNone [recA]) (by decide)

/-- Claim C10: on any record list with pairwise-distinct present generated
ids — which is what `aggregate` always produces — the dedup step of
`transform_contracts` removes nothing: the table is exactly the row-wise
normalization of the input, one row per record in input order; so on
aggregator output, normalization-with-dedup equals
normalization-without-dedup. -/
theorem dedup_noop_on_distinct {δ : Type} (parse : Value → Option δ) :
    (∀ results : List RawRecord,
      (results.map getGenId).Nodup →
      (∀ r ∈ results, (getGenId r).truthy = true) →
      transform_contracts parse results = results.map (normalizeRow parse)) ∧
    (∀ batches : List (List RawRecord),
      transform_contracts parse (aggregate batches) =
        (aggregate batches).map (normalizeRow parse)) := by
  have h1 : ∀ results : List RawRecord, (results.map getGenId).Nodup →
      transform_contracts parse results = results.map (normalizeRow parse) := by
    intro results hn
    rw [transform_contracts_eq]
    simp only [drop_duplicates]
    refine dropDupAux_eq_self ?_ ?_
    · rw [map_genId_normalize]
      exact hn
    · intro x _
      exact List.not_mem_nil _
  exact ⟨fun results hn _ => h1 results hn, fun batches => h1 _ (aggregate_nodup batches)⟩

/-- Witness for C10: two records with distinct present ids pass through the
dedup step untouched. -/
theorem dedup_noop_on_distinct_witness :
    transform_contracts parseNone [recA, recB] =
      ([recA, recB] : List RawRecord).map (normalizeRow parseNone) :=
  (dedup_noop_on_distinct parseNone).1 [recA, recB] (by decide) (by decide)

end GovContracts
